import Mathlib

/-!
Shallow embedding of the `mm_io` NBT codec (Team-Lodestone/mm_io).

The embedding follows the Rust sources:
- `src/bin.rs`: the `FileParser` / `FileWriter` byte cursors used by the
  Tag codec.  Their reads index slices directly, so a read past the end of
  the buffer aborts (a Rust slice-index failure); we model that abort as the
  error value `RErr.sliceOutOfRange`.
- `src/binary.rs`: the Result-based `FileReaderBE`/`FileReaderLE` layer,
  whose `get_slice` returns `UnexpectedEndOfByteStream` on a short read.
- `src/nbt.rs`: the recursive `Tag` codec (`read_be`, `read_le`,
  `write_be`, `write_le`, `from_be_bytes`, `from_le_bytes`, `to_be_bytes`,
  `to_le_bytes`).

Bytes are modelled as `Nat` taken modulo 256 where they are interpreted;
signed machine integers are modelled as `Int` via two's-complement
(`toSigned`); Rust `String` values are modelled as their sequence of
Unicode scalar values (`List Nat`); `HashMap<String, Tag>` is modelled as
an association list with last-write-wins insertion (`insertAssoc`); the
compound writer iterates the association list in list order (Rust's
`HashMap` iteration order is unspecified, so theorems below only compare
compounds with at most one entry, where the order is irrelevant).
Recursive reads are given a fuel parameter; `RErr.fuelExhausted` marks an
exhausted budget and theorems instantiate ample concrete fuel.
-/

namespace Mmio

/-- Two's-complement interpretation of a `w`-bit unsigned value. -/
def toSigned (w : Nat) (n : Nat) : Int :=
  if n < 2 ^ (w - 1) then (n : Int) else (n : Int) - 2 ^ w

/-- Big-endian value of a byte list (each entry taken mod 256),
as in `from_be_bytes`. -/
def beNat (bs : List Nat) : Nat :=
  bs.foldl (fun a b => a * 256 + b % 256) 0

/-- Little-endian value of a byte list, as in `from_le_bytes`. -/
def leNat (bs : List Nat) : Nat := beNat bs.reverse

/-- The `width` big-endian bytes of `n mod 2^(8*width)`, as in
`to_be_bytes` on a `width`-byte machine integer. -/
def natBytesBE (width n : Nat) : List Nat :=
  (List.range width).map (fun i => n / 256 ^ (width - 1 - i) % 256)

/-- Big-endian two's-complement bytes of a signed value (`to_be_bytes`). -/
def intBytesBE (width : Nat) (v : Int) : List Nat :=
  natBytesBE width (v % ((2 : Int) ^ (8 * width))).toNat

/-- Little-endian two's-complement bytes of a signed value (`to_le_bytes`). -/
def intBytesLE (width : Nat) (v : Int) : List Nat :=
  (intBytesBE width v).reverse

/-- Byte length of a Unicode scalar value in standard UTF-8; Rust's
`String::len` is the sum of these over the string's characters. -/
def utf8CharLen (c : Nat) : Nat :=
  if c < 0x80 then 1 else if c < 0x800 then 2
  else if c < 0x10000 then 3 else 4

/-- Rust `String::len`: the UTF-8 byte length of the string. -/
def utf8Len (s : List Nat) : Nat := (s.map utf8CharLen).sum

/-- Modelled from the spec: "Modified UTF-8" (glossary and section 4.2),
the encoding implemented by the external `mutf8` crate used by the source.
Standard UTF-8, except the null code point is encoded as the two bytes
0xC0 0x80, and code points above the Basic Multilingual Plane are encoded
as a surrogate pair with each surrogate written as a 3-byte unit. -/
def mutf8EncodeChar (c : Nat) : List Nat :=
  if c = 0 then [0xC0, 0x80]
  else if c < 0x80 then [c]
  else if c < 0x800 then [0xC0 + c / 64, 0x80 + c % 64]
  else if c < 0x10000 then
    [0xE0 + c / 4096, 0x80 + c / 64 % 64, 0x80 + c % 64]
  else
    let c' := c - 0x10000
    let hi := 0xD800 + c' / 1024
    let lo := 0xDC00 + c' % 1024
    [0xE0 + hi / 4096, 0x80 + hi / 64 % 64, 0x80 + hi % 64,
     0xE0 + lo / 4096, 0x80 + lo / 64 % 64, 0x80 + lo % 64]

/-- Modified-UTF-8 encoding of a string (sequence of scalar values). -/
def mutf8Encode (s : List Nat) : List Nat := s.flatMap mutf8EncodeChar

/-- Modelled from the spec: decoding of modified UTF-8 (the inverse
direction of `mutf8EncodeChar`, as performed by `MString::from_mutf8`).
Fuel-indexed; `none` models an undecodable byte sequence. -/
def mutf8DecodeAux : Nat → List Nat → Option (List Nat)
  | _, [] => some []
  | 0, _ :: _ => none
  | fuel + 1, b :: rest =>
    if b < 0x80 then
      (mutf8DecodeAux fuel rest).map (fun s => b :: s)
    else if b < 0xC0 then none
    else if b < 0xE0 then
      match rest with
      | b2 :: rest' =>
        if 0x80 ≤ b2 ∧ b2 < 0xC0 then
          (mutf8DecodeAux fuel rest').map
            (fun s => ((b - 0xC0) * 64 + (b2 - 0x80)) :: s)
        else none
      | [] => none
    else if b < 0xF0 then
      match rest with
      | b2 :: b3 :: rest' =>
        if 0x80 ≤ b2 ∧ b2 < 0xC0 ∧ 0x80 ≤ b3 ∧ b3 < 0xC0 then
          let u := (b - 0xE0) * 4096 + (b2 - 0x80) * 64 + (b3 - 0x80)
          if 0xD800 ≤ u ∧ u < 0xDC00 then
            match rest' with
            | c1 :: c2 :: c3 :: rest'' =>
              if 0xE0 ≤ c1 ∧ c1 < 0xF0 ∧ 0x80 ≤ c2 ∧ c2 < 0xC0 ∧
                 0x80 ≤ c3 ∧ c3 < 0xC0 then
                let v := (c1 - 0xE0) * 4096 + (c2 - 0x80) * 64 + (c3 - 0x80)
                if 0xDC00 ≤ v ∧ v < 0xE000 then
                  (mutf8DecodeAux fuel rest'').map
                    (fun s =>
                      (0x10000 + (u - 0xD800) * 1024 + (v - 0xDC00)) :: s)
                else none
              else none
            | _ => none
          else
            (mutf8DecodeAux fuel rest').map (fun s => u :: s)
        else none
      | _ => none
    else none

/-- Modified-UTF-8 decoding of a byte list. -/
def mutf8Decode (bs : List Nat) : Option (List Nat) :=
  mutf8DecodeAux bs.length bs

/-! ## `src/bin.rs`: `FileParser` (the cursor used by the Tag codec)

`FileParser` reads by slicing `self.bytes[self.pos - n .. self.pos]` after
advancing `self.pos`; a slice whose end exceeds the buffer aborts the
program (Rust slice-index failure).  We model each possible abort as an
error value so that theorems can observe it. -/

/-- The observable outcomes of running the `bin.rs`/`nbt.rs` code that can
terminate abnormally.  `sliceOutOfRange` models the abort raised by Rust
slice indexing past the buffer end in `FileParser`; `invalidTagId` models
the explicit abort `"Invalid Tag ID: {id}"` in `Tag::read_be`/`read_le`;
`mutf8Error` models a failure of the external modified-UTF-8 conversion;
`fuelExhausted` is an artifact of the fuel-indexed model only. -/
inductive RErr where
  | sliceOutOfRange
  | invalidTagId (id : Nat)
  | mutf8Error
  | fuelExhausted
deriving Repr, DecidableEq

/-- `bin.rs` `FileParser`: a borrowed byte buffer plus a position. -/
structure FileParser where
  bytes : List Nat
  pos : Nat
deriving Repr, DecidableEq

namespace FileParser

/-- Take `n` bytes at the current position and advance; aborts
(`sliceOutOfRange`) when the slice would pass the buffer end, exactly as
the slice indexing in every `FileParser::read_*` does. -/
def getBytes (n : Nat) (fp : FileParser) : Except RErr (List Nat × FileParser) :=
  if fp.pos + n ≤ fp.bytes.length then
    .ok ((fp.bytes.drop fp.pos).take n, ⟨fp.bytes, fp.pos + n⟩)
  else
    .error .sliceOutOfRange

/-- `FileParser::read_u8`. -/
def read_u8 (fp : FileParser) : Except RErr (Nat × FileParser) := do
  let (bs, fp) ← getBytes 1 fp
  pure (beNat bs, fp)

/-- `FileParser::read_i8`. -/
def read_i8 (fp : FileParser) : Except RErr (Int × FileParser) := do
  let (bs, fp) ← getBytes 1 fp
  pure (toSigned 8 (beNat bs), fp)

/-- `FileParser::read_be_u16`. -/
def read_be_u16 (fp : FileParser) : Except RErr (Nat × FileParser) := do
  let (bs, fp) ← getBytes 2 fp
  pure (beNat bs, fp)

/-- `FileParser::read_be_i16`. -/
def read_be_i16 (fp : FileParser) : Except RErr (Int × FileParser) := do
  let (bs, fp) ← getBytes 2 fp
  pure (toSigned 16 (beNat bs), fp)

/-- `FileParser::read_be_i32`. -/
def read_be_i32 (fp : FileParser) : Except RErr (Int × FileParser) := do
  let (bs, fp) ← getBytes 4 fp
  pure (toSigned 32 (beNat bs), fp)

/-- `FileParser::read_be_i64`. -/
def read_be_i64 (fp : FileParser) : Except RErr (Int × FileParser) := do
  let (bs, fp) ← getBytes 8 fp
  pure (toSigned 64 (beNat bs), fp)

/-- `FileParser::read_be_f32`, modelled as the raw 32-bit pattern. -/
def read_be_f32 (fp : FileParser) : Except RErr (Nat × FileParser) := do
  let (bs, fp) ← getBytes 4 fp
  pure (beNat bs, fp)

/-- `FileParser::read_be_f64`, modelled as the raw 64-bit pattern. -/
def read_be_f64 (fp : FileParser) : Except RErr (Nat × FileParser) := do
  let (bs, fp) ← getBytes 8 fp
  pure (beNat bs, fp)

/-- `FileParser::read_le_u16`. -/
def read_le_u16 (fp : FileParser) : Except RErr (Nat × FileParser) := do
  let (bs, fp) ← getBytes 2 fp
  pure (leNat bs, fp)

/-- `FileParser::read_le_i16`. -/
def read_le_i16 (fp : FileParser) : Except RErr (Int × FileParser) := do
  let (bs, fp) ← getBytes 2 fp
  pure (toSigned 16 (leNat bs), fp)

/-- `FileParser::read_le_i32`. -/
def read_le_i32 (fp : FileParser) : Except RErr (Int × FileParser) := do
  let (bs, fp) ← getBytes 4 fp
  pure (toSigned 32 (leNat bs), fp)

/-- `FileParser::read_le_i64`. -/
def read_le_i64 (fp : FileParser) : Except RErr (Int × FileParser) := do
  let (bs, fp) ← getBytes 8 fp
  pure (toSigned 64 (leNat bs), fp)

/-- `FileParser::read_le_f32`, modelled as the raw 32-bit pattern. -/
def read_le_f32 (fp : FileParser) : Except RErr (Nat × FileParser) := do
  let (bs, fp) ← getBytes 4 fp
  pure (leNat bs, fp)

/-- `FileParser::read_le_f64`, modelled as the raw 64-bit pattern. -/
def read_le_f64 (fp : FileParser) : Except RErr (Nat × FileParser) := do
  let (bs, fp) ← getBytes 8 fp
  pure (leNat bs, fp)

/-- `FileParser::read_be_var_string`: a big-endian unsigned 16-bit byte
length, then that many bytes decoded from modified UTF-8.  The source
slices `bytes[pos..pos+2]` and then `bytes[pos+2..pos+2+len]`; either
slice passing the buffer end aborts. -/
def read_be_var_string (fp : FileParser) :
    Except RErr (List Nat × FileParser) :=
  if fp.pos + 2 ≤ fp.bytes.length then
    let len := beNat ((fp.bytes.drop fp.pos).take 2)
    if fp.pos + 2 + len ≤ fp.bytes.length then
      match mutf8Decode ((fp.bytes.drop (fp.pos + 2)).take len) with
      | some s => .ok (s, ⟨fp.bytes, fp.pos + 2 + len⟩)
      | none => .error .mutf8Error
    else .error .sliceOutOfRange
  else .error .sliceOutOfRange

/-- `FileParser::read_le_var_string`: as `read_be_var_string` but with a
little-endian length prefix. -/
def read_le_var_string (fp : FileParser) :
    Except RErr (List Nat × FileParser) :=
  if fp.pos + 2 ≤ fp.bytes.length then
    let len := leNat ((fp.bytes.drop fp.pos).take 2)
    if fp.pos + 2 + len ≤ fp.bytes.length then
      match mutf8Decode ((fp.bytes.drop (fp.pos + 2)).take len) with
      | some s => .ok (s, ⟨fp.bytes, fp.pos + 2 + len⟩)
      | none => .error .mutf8Error
    else .error .sliceOutOfRange
  else .error .sliceOutOfRange

/-- `FileParser::rest`. -/
def rest (fp : FileParser) : List Nat := fp.bytes.drop fp.pos

/-- `FileParser::at_end`: `pos == bytes.len()`. -/
def at_end (fp : FileParser) : Bool := fp.pos == fp.bytes.length

end FileParser

/-! ## `src/bin.rs`: `FileWriter`

A growable byte buffer; every `write_*` appends.  Note that in the source
every `write_le_*` body calls `to_be_bytes` (bin.rs lines 232-261), so the
"little-endian" writers in fact append big-endian bytes; the model keeps
that behavior. -/

/-- `FileWriter::write_u8` (appends to the writer's byte buffer). -/
def write_u8 (v : Nat) (w : List Nat) : List Nat := w ++ [v % 256]

/-- `FileWriter::write_i8`. -/
def write_i8 (v : Int) (w : List Nat) : List Nat := w ++ intBytesBE 1 v

/-- `FileWriter::write_be_u16`. -/
def write_be_u16 (v : Nat) (w : List Nat) : List Nat := w ++ natBytesBE 2 v

/-- `FileWriter::write_be_i16`. -/
def write_be_i16 (v : Int) (w : List Nat) : List Nat := w ++ intBytesBE 2 v

/-- `FileWriter::write_be_i32`. -/
def write_be_i32 (v : Int) (w : List Nat) : List Nat := w ++ intBytesBE 4 v

/-- `FileWriter::write_be_i64`. -/
def write_be_i64 (v : Int) (w : List Nat) : List Nat := w ++ intBytesBE 8 v

/-- `FileWriter::write_be_f32` (raw 32-bit pattern). -/
def write_be_f32 (bits : Nat) (w : List Nat) : List Nat := w ++ natBytesBE 4 bits

/-- `FileWriter::write_be_f64` (raw 64-bit pattern). -/
def write_be_f64 (bits : Nat) (w : List Nat) : List Nat := w ++ natBytesBE 8 bits

/-- `FileWriter::write_be_var_string`: the length prefix is
`v.len() as u16`, i.e. the UTF-8 byte length of the native string
truncated to 16 bits — not the length of the modified-UTF-8 payload that
follows it. -/
def write_be_var_string (s : List Nat) (w : List Nat) : List Nat :=
  w ++ natBytesBE 2 (utf8Len s) ++ mutf8Encode s

/-- `FileWriter::write_le_u16` — the source body calls `to_be_bytes`. -/
def write_le_u16 (v : Nat) (w : List Nat) : List Nat := w ++ natBytesBE 2 v

/-- `FileWriter::write_le_i16` — the source body calls `to_be_bytes`. -/
def write_le_i16 (v : Int) (w : List Nat) : List Nat := w ++ intBytesBE 2 v

/-- `FileWriter::write_le_i32` — the source body calls `to_be_bytes`. -/
def write_le_i32 (v : Int) (w : List Nat) : List Nat := w ++ intBytesBE 4 v

/-- `FileWriter::write_le_i64` — the source body calls `to_be_bytes`. -/
def write_le_i64 (v : Int) (w : List Nat) : List Nat := w ++ intBytesBE 8 v

/-- `FileWriter::write_le_f32` — the source body calls `to_be_bytes`. -/
def write_le_f32 (bits : Nat) (w : List Nat) : List Nat := w ++ natBytesBE 4 bits

/-- `FileWriter::write_le_f64` — the source body calls `to_be_bytes`. -/
def write_le_f64 (bits : Nat) (w : List Nat) : List Nat := w ++ natBytesBE 8 bits

/-- `FileWriter::write_le_var_string` — the source writes the length
prefix with `to_be_bytes`, identical to `write_be_var_string`. -/
def write_le_var_string (s : List Nat) (w : List Nat) : List Nat :=
  w ++ natBytesBE 2 (utf8Len s) ++ mutf8Encode s

/-! ## `src/nbt.rs`: the `Tag` data model -/

/-- `nbt.rs` `enum Tag`.  Strings are sequences of Unicode scalar values;
float payloads are raw bit patterns; `Compound` is the `HashMap` modelled
as an association list. -/
inductive Tag where
  | End
  | Byte (v : Int)
  | Short (v : Int)
  | Int (v : Int)
  | Long (v : Int)
  | Float (bits : Nat)
  | Double (bits : Nat)
  | ByteArray (v : List Int)
  | String (s : List Nat)
  | List (elems : List Tag)
  | Compound (entries : List (List Nat × Tag))
  | IntArray (v : List Int)
  | LongArray (v : List Int)
deriving Repr

/-- `Tag::tag_id`. -/
def tag_id : Tag → Nat
  | .End => 0x00
  | .Byte _ => 0x01
  | .Short _ => 0x02
  | .Int _ => 0x03
  | .Long _ => 0x04
  | .Float _ => 0x05
  | .Double _ => 0x06
  | .ByteArray _ => 0x07
  | .String _ => 0x08
  | .List _ => 0x09
  | .Compound _ => 0x0A
  | .IntArray _ => 0x0B
  | .LongArray _ => 0x0C

/-- `HashMap::insert` on the association-list model: replaces the value of
an existing key in place (last write wins), otherwise appends. -/
def insertAssoc (k : List Nat) (v : Tag) :
    List (List Nat × Tag) → List (List Nat × Tag)
  | [] => [(k, v)]
  | (k', v') :: rest =>
    if k = k' then (k, v) :: rest else (k', v') :: insertAssoc k v rest

/-- `Tag::wrapped`: wrap a tag in a singleton compound keyed by `k`. -/
def wrapped (t : Tag) (k : List Nat) : Tag := Tag.Compound [(k, t)]

/-! ## `src/nbt.rs`: the writers

`write_be`/`write_le` are structural recursions over the tag; the list and
compound loops are split into companion functions on the element lists.
The source's `write_le` for `Tag::List` writes its elements with
`write_be` (nbt.rs line 294); the model keeps that. -/

/-- The element loops of the array writers (`write_i8` per element). -/
def writeI8s : List Int → List Nat → List Nat
  | [], w => w
  | v :: vs, w => writeI8s vs (write_i8 v w)

/-- The element loop of `Tag::write_be` for `Tag::IntArray`. -/
def writeBeI32s : List Int → List Nat → List Nat
  | [], w => w
  | v :: vs, w => writeBeI32s vs (write_be_i32 v w)

/-- The element loop of `Tag::write_be` for `Tag::LongArray`. -/
def writeBeI64s : List Int → List Nat → List Nat
  | [], w => w
  | v :: vs, w => writeBeI64s vs (write_be_i64 v w)

/-- The element loop of `Tag::write_le` for `Tag::IntArray`. -/
def writeLeI32s : List Int → List Nat → List Nat
  | [], w => w
  | v :: vs, w => writeLeI32s vs (write_le_i32 v w)

/-- The element loop of `Tag::write_le` for `Tag::LongArray`
(`write_le_i64` per element). -/
def writeLeI64s : List Int → List Nat → List Nat
  | [], w => w
  | v :: vs, w => writeLeI64s vs (write_le_i64 v w)

mutual

/-- `Tag::write_be` (appends to the writer's byte buffer). -/
def write_be : Tag → List Nat → List Nat
  | .End, w => w
  | .Byte v, w => write_i8 v w
  | .Short v, w => write_be_i16 v w
  | .Int v, w => write_be_i32 v w
  | .Long v, w => write_be_i64 v w
  | .Float bits, w => write_be_f32 bits w
  | .Double bits, w => write_be_f64 bits w
  | .ByteArray v, w =>
    writeI8s v (write_be_i32 (v.length : Int) w)
  | .String s, w => write_be_var_string s w
  | .List v, w =>
    let w := match v with
      | [] => write_u8 0x00 w
      | t :: _ => write_u8 (tag_id t) w
    write_be_elems v (write_be_i32 (v.length : Int) w)
  | .Compound entries, w =>
    write_u8 0x00 (write_be_entries entries w)
  | .IntArray v, w =>
    writeBeI32s v (write_be_i32 (v.length : Int) w)
  | .LongArray v, w =>
    writeBeI64s v (write_be_i32 (v.length : Int) w)

/-- The element loop of `Tag::write_be` for `Tag::List`. -/
def write_be_elems : List Tag → List Nat → List Nat
  | [], w => w
  | t :: ts, w => write_be_elems ts (write_be t w)

/-- The entry loop of `Tag::write_be` for `Tag::Compound`
(`(type-id, name, payload)` per entry, in the model's list order). -/
def write_be_entries : List (List Nat × Tag) → List Nat → List Nat
  | [], w => w
  | (k, v) :: rest, w =>
    write_be_entries rest
      (write_be v (write_be_var_string k (write_u8 (tag_id v) w)))

/-- `Tag::write_le`. -/
def write_le : Tag → List Nat → List Nat
  | .End, w => w
  | .Byte v, w => write_i8 v w
  | .Short v, w => write_le_i16 v w
  | .Int v, w => write_le_i32 v w
  | .Long v, w => write_le_i64 v w
  | .Float bits, w => write_le_f32 bits w
  | .Double bits, w => write_le_f64 bits w
  | .ByteArray v, w =>
    writeI8s v (write_le_i32 (v.length : Int) w)
  | .String s, w => write_le_var_string s w
  | .List v, w =>
    let w := match v with
      | [] => write_u8 0x00 w
      | t :: _ => write_u8 (tag_id t) w
    write_be_elems v (write_le_i32 (v.length : Int) w)
  | .Compound entries, w =>
    write_u8 0x00 (write_le_entries entries w)
  | .IntArray v, w =>
    writeLeI32s v (write_le_i32 (v.length : Int) w)
  | .LongArray v, w =>
    writeLeI64s v (write_le_i32 (v.length : Int) w)

/-- The entry loop of `Tag::write_le` for `Tag::Compound`. -/
def write_le_entries : List (List Nat × Tag) → List Nat → List Nat
  | [], w => w
  | (k, v) :: rest, w =>
    write_le_entries rest
      (write_le v (write_le_var_string k (write_u8 (tag_id v) w)))

end

/-- `Tag::to_be_bytes`: write into a fresh writer with `write_be`. -/
def to_be_bytes (t : Tag) : List Nat := write_be t []

/-- `Tag::to_le_bytes` — the source body calls `self.write_be`
(nbt.rs line 43), so the "little-endian" encoder emits big-endian bytes. -/
def to_le_bytes (t : Tag) : List Nat := write_be t []

/-! ## `src/nbt.rs`: the readers

`Tag::read_be`/`read_le` dispatch on the tag id and recurse for lists and
compounds.  `for _ in 0..len` on a signed `len` runs `max(len, 0)` times,
i.e. `len.toNat` times.  The fuel parameter only bounds the recursion
depth of the model: with ample fuel (any amount above the buffer length
plus one suffices for every terminating run) it never fires. -/

/-- The scalar element loop of the `ByteArray` reader (`read_i8` each). -/
def readI8s : Nat → FileParser → Except RErr (List Int × FileParser)
  | 0, fp => pure ([], fp)
  | n + 1, fp => do
    let (v, fp) ← fp.read_i8
    let (vs, fp) ← readI8s n fp
    pure (v :: vs, fp)

/-- The scalar element loop of the big-endian `IntArray` reader. -/
def readBeI32s : Nat → FileParser → Except RErr (List Int × FileParser)
  | 0, fp => pure ([], fp)
  | n + 1, fp => do
    let (v, fp) ← fp.read_be_i32
    let (vs, fp) ← readBeI32s n fp
    pure (v :: vs, fp)

/-- The scalar element loop of the big-endian `LongArray` reader. -/
def readBeI64s : Nat → FileParser → Except RErr (List Int × FileParser)
  | 0, fp => pure ([], fp)
  | n + 1, fp => do
    let (v, fp) ← fp.read_be_i64
    let (vs, fp) ← readBeI64s n fp
    pure (v :: vs, fp)

/-- The scalar element loop of the little-endian `IntArray` reader. -/
def readLeI32s : Nat → FileParser → Except RErr (List Int × FileParser)
  | 0, fp => pure ([], fp)
  | n + 1, fp => do
    let (v, fp) ← fp.read_le_i32
    let (vs, fp) ← readLeI32s n fp
    pure (v :: vs, fp)

/-- The scalar element loop of the little-endian `LongArray` reader. -/
def readLeI64s : Nat → FileParser → Except RErr (List Int × FileParser)
  | 0, fp => pure ([], fp)
  | n + 1, fp => do
    let (v, fp) ← fp.read_le_i64
    let (vs, fp) ← readLeI64s n fp
    pure (v :: vs, fp)

mutual

/-- `Tag::read_be` (fuel-indexed). -/
def read_be : Nat → Nat → FileParser → Except RErr (Tag × FileParser)
  | 0, _, _ => .error .fuelExhausted
  | fuel + 1, tagId, fp =>
    match tagId with
    | 0x01 => do
      let (v, fp) ← fp.read_i8
      pure (Tag.Byte v, fp)
    | 0x02 => do
      let (v, fp) ← fp.read_be_i16
      pure (Tag.Short v, fp)
    | 0x03 => do
      let (v, fp) ← fp.read_be_i32
      pure (Tag.Int v, fp)
    | 0x04 => do
      let (v, fp) ← fp.read_be_i64
      pure (Tag.Long v, fp)
    | 0x05 => do
      let (v, fp) ← fp.read_be_f32
      pure (Tag.Float v, fp)
    | 0x06 => do
      let (v, fp) ← fp.read_be_f64
      pure (Tag.Double v, fp)
    | 0x07 => do
      let (len, fp) ← fp.read_be_i32
      let (arr, fp) ← readI8s len.toNat fp
      pure (Tag.ByteArray arr, fp)
    | 0x08 => do
      let (s, fp) ← fp.read_be_var_string
      pure (Tag.String s, fp)
    | 0x09 => do
      let (typeId, fp) ← fp.read_u8
      let (len, fp) ← fp.read_be_i32
      let (arr, fp) ← read_be_elems fuel typeId len.toNat fp
      pure (Tag.List arr, fp)
    | 0x0A => do
      let (entries, fp) ← read_be_compound fuel [] fp
      pure (Tag.Compound entries, fp)
    | 0x0B => do
      let (len, fp) ← fp.read_be_i32
      let (arr, fp) ← readBeI32s len.toNat fp
      pure (Tag.IntArray arr, fp)
    | 0x0C => do
      let (len, fp) ← fp.read_be_i64
      let (arr, fp) ← readBeI64s len.toNat fp
      pure (Tag.LongArray arr, fp)
    | x => .error (.invalidTagId x)

/-- The element loop of `Tag::read_be` for `Tag::List`. -/
def read_be_elems :
    Nat → Nat → Nat → FileParser → Except RErr (List Tag × FileParser)
  | _, _, 0, fp => pure ([], fp)
  | 0, _, _ + 1, _ => .error .fuelExhausted
  | fuel + 1, typeId, n + 1, fp => do
    let (t, fp) ← read_be fuel typeId fp
    let (ts, fp) ← read_be_elems fuel typeId n fp
    pure (t :: ts, fp)

/-- The entry loop of `Tag::read_be` for `Tag::Compound`: stop at
end-of-buffer or at an End marker byte; otherwise read a name and a tag
and insert (last write wins). -/
def read_be_compound :
    Nat → List (List Nat × Tag) → FileParser →
    Except RErr (List (List Nat × Tag) × FileParser)
  | 0, _, _ => .error .fuelExhausted
  | fuel + 1, acc, fp =>
    if fp.at_end then pure (acc, fp)
    else do
      let (tid, fp) ← fp.read_u8
      if tid = 0x00 then pure (acc, fp)
      else do
        let (name, fp) ← fp.read_be_var_string
        let (t, fp) ← read_be fuel tid fp
        read_be_compound fuel (insertAssoc name t acc) fp

/-- `Tag::read_le` (fuel-indexed). -/
def read_le : Nat → Nat → FileParser → Except RErr (Tag × FileParser)
  | 0, _, _ => .error .fuelExhausted
  | fuel + 1, tagId, fp =>
    match tagId with
    | 0x01 => do
      let (v, fp) ← fp.read_i8
      pure (Tag.Byte v, fp)
    | 0x02 => do
      let (v, fp) ← fp.read_le_i16
      pure (Tag.Short v, fp)
    | 0x03 => do
      let (v, fp) ← fp.read_le_i32
      pure (Tag.Int v, fp)
    | 0x04 => do
      let (v, fp) ← fp.read_le_i64
      pure (Tag.Long v, fp)
    | 0x05 => do
      let (v, fp) ← fp.read_le_f32
      pure (Tag.Float v, fp)
    | 0x06 => do
      let (v, fp) ← fp.read_le_f64
      pure (Tag.Double v, fp)
    | 0x07 => do
      let (len, fp) ← fp.read_le_i32
      let (arr, fp) ← readI8s len.toNat fp
      pure (Tag.ByteArray arr, fp)
    | 0x08 => do
      let (s, fp) ← fp.read_le_var_string
      pure (Tag.String s, fp)
    | 0x09 => do
      let (typeId, fp) ← fp.read_u8
      let (len, fp) ← fp.read_le_i32
      let (arr, fp) ← read_le_elems fuel typeId len.toNat fp
      pure (Tag.List arr, fp)
    | 0x0A => do
      let (entries, fp) ← read_le_compound fuel [] fp
      pure (Tag.Compound entries, fp)
    | 0x0B => do
      let (len, fp) ← fp.read_le_i32
      let (arr, fp) ← readLeI32s len.toNat fp
      pure (Tag.IntArray arr, fp)
    | 0x0C => do
      let (len, fp) ← fp.read_le_i64
      let (arr, fp) ← readLeI64s len.toNat fp
      pure (Tag.LongArray arr, fp)
    | x => .error (.invalidTagId x)

/-- The element loop of `Tag::read_le` for `Tag::List`. -/
def read_le_elems :
    Nat → Nat → Nat → FileParser → Except RErr (List Tag × FileParser)
  | _, _, 0, fp => pure ([], fp)
  | 0, _, _ + 1, _ => .error .fuelExhausted
  | fuel + 1, typeId, n + 1, fp => do
    let (t, fp) ← read_le fuel typeId fp
    let (ts, fp) ← read_le_elems fuel typeId n fp
    pure (t :: ts, fp)

/-- The entry loop of `Tag::read_le` for `Tag::Compound`. -/
def read_le_compound :
    Nat → List (List Nat × Tag) → FileParser →
    Except RErr (List (List Nat × Tag) × FileParser)
  | 0, _, _ => .error .fuelExhausted
  | fuel + 1, acc, fp =>
    if fp.at_end then pure (acc, fp)
    else do
      let (tid, fp) ← fp.read_u8
      if tid = 0x00 then pure (acc, fp)
      else do
        let (name, fp) ← fp.read_le_var_string
        let (t, fp) ← read_le fuel tid fp
        read_le_compound fuel (insertAssoc name t acc) fp

end

/-- `Tag::from_be_bytes`: parse from offset 0 with the implicit root id
`0x0A` (Compound); fuel-indexed as `read_be`. -/
def from_be_bytes (fuel : Nat) (bytes : List Nat) : Except RErr Tag :=
  (read_be fuel 0x0A ⟨bytes, 0⟩).map Prod.fst

/-- `Tag::from_le_bytes`: parse from offset 0 with the implicit root id
`0x0A` (Compound); fuel-indexed as `read_le`. -/
def from_le_bytes (fuel : Nat) (bytes : List Nat) : Except RErr Tag :=
  (read_le fuel 0x0A ⟨bytes, 0⟩).map Prod.fst

/-! ## `src/binary.rs`: the Result-based reader layer

`get_slice` advances the position and returns
`UnexpectedEndOfByteStream` when it would pass the buffer end; a
fixed-width primitive read then converts the slice, with a `Parse` error
for a width mismatch (unreachable after a successful `get_slice`, but
representable, as the source's `try_into` arm is). -/

/-- `binary.rs` `BinError` (the `Parse` payload is dropped). -/
inductive BinError where
  | unexpectedEndOfByteStream
  | parse
deriving Repr, DecidableEq

/-- The cursor state shared by `FileReaderBE` and `FileReaderLE`. -/
structure FileReaderState where
  bytes : List Nat
  pos : Nat
deriving Repr, DecidableEq

/-- `binary.rs` `get_slice` (the bounds check; the source advances `pos`
before checking, but a failed read's state is not observed by callers that
treat the first error as terminal). -/
def get_slice (len : Nat) (r : FileReaderState) :
    Except BinError (List Nat × FileReaderState) :=
  if r.pos + len > r.bytes.length then .error .unexpectedEndOfByteStream
  else .ok ((r.bytes.drop r.pos).take len, ⟨r.bytes, r.pos + len⟩)

/-- `binary.rs` `i16::primitive_read_be` (`io_primitive!(i16, 2)`):
`get_slice(2)`, then `try_into` a 2-byte array (`Parse` on width
mismatch), then `from_be_bytes`. -/
def primitive_read_be_i16 (r : FileReaderState) :
    Except BinError (Int × FileReaderState) := do
  let (bs, r) ← get_slice 2 r
  if bs.length = 2 then pure (toSigned 16 (beNat bs), r)
  else .error .parse

/-- `binary.rs` `i16::primitive_read_le`. -/
def primitive_read_le_i16 (r : FileReaderState) :
    Except BinError (Int × FileReaderState) := do
  let (bs, r) ← get_slice 2 r
  if bs.length = 2 then pure (toSigned 16 (leNat bs), r)
  else .error .parse

/-! ## Theorems about the codec -/

/-- A `w`-bit value whose signed interpretation is negative has `toNat`
zero, so a `for _ in 0..len` loop over it runs zero times. -/
theorem toSigned_neg_toNat (w n : Nat) (h : toSigned w n < 0) :
    (toSigned w n).toNat = 0 :=
  Int.toNat_of_nonpos h.le

/-- C1: the round-trip `decode(encode(t)) == t` fails on both endianness
pairs.  Little-endian: `to_le_bytes` encodes with `write_be` (nbt.rs line
43), so `from_le_bytes` misreads every multi-byte payload — the compound
`{"": Short(1)}` decodes to `{"": Short(256)}`.  Big-endian: the
`LongArray` length is written as a 32-bit integer (nbt.rs line 248) but
read back as a 64-bit integer (nbt.rs line 120), so decoding the encoding
of `{"": LongArray([])}` reads past the end of the buffer and aborts. -/
theorem roundtrip_fails_both_endiannesses :
    from_le_bytes 32 (to_le_bytes (Tag.Compound [([], Tag.Short 1)])) =
      .ok (Tag.Compound [([], Tag.Short 256)]) ∧
    Tag.Compound [([], Tag.Short 256)] ≠ Tag.Compound [([], Tag.Short 1)] ∧
    from_be_bytes 32 (to_be_bytes (Tag.Compound [([], Tag.LongArray [])])) =
      .error .sliceOutOfRange := by
  refine ⟨rfl, ?_, rfl⟩
  intro h
  injection h with h'
  simp at h'

/-- C2: reading a tag with an unsupported id does not return a typed
`Parsing` error — the code hits the `panic` arm of the dispatch, modelled
as the abnormal outcome `RErr.invalidTagId` carrying the offending id.
This holds at the top level, for a compound entry, and for a list element,
in both endiannesses. -/
theorem invalid_tag_id_aborts :
    read_be 32 0xFF ⟨[], 0⟩ = .error (.invalidTagId 0xFF) ∧
    read_le 32 0xFF ⟨[], 0⟩ = .error (.invalidTagId 0xFF) ∧
    read_be 32 0x0D ⟨[], 0⟩ = .error (.invalidTagId 0x0D) ∧
    read_be 32 0x0A ⟨[0xFF, 0x00, 0x01, 0x61, 0x00], 0⟩ =
      .error (.invalidTagId 0xFF) ∧
    read_le 32 0x0A ⟨[0xFF, 0x01, 0x00, 0x61, 0x00], 0⟩ =
      .error (.invalidTagId 0xFF) ∧
    read_be 32 0x09 ⟨[0xFF, 0x00, 0x00, 0x00, 0x01], 0⟩ =
      .error (.invalidTagId 0xFF) ∧
    read_le 32 0x09 ⟨[0xFF, 0x01, 0x00, 0x00, 0x00], 0⟩ =
      .error (.invalidTagId 0xFF) :=
  ⟨rfl, rfl, rfl, rfl, rfl, rfl, rfl⟩

/-- C3: on a one-byte buffer, a Short read through the `binary.rs` reader
fails with `UnexpectedEndOfByteStream`, but the `FileParser` used by
`Tag::read_be` (bin.rs) aborts on the out-of-range slice instead, and so
does decoding the buffer as a Short tag. -/
theorem truncated_short_read :
    primitive_read_be_i16 ⟨[0x05], 0⟩ = .error .unexpectedEndOfByteStream ∧
    primitive_read_le_i16 ⟨[0x05], 0⟩ = .error .unexpectedEndOfByteStream ∧
    FileParser.read_be_i16 ⟨[0x05], 0⟩ = .error .sliceOutOfRange ∧
    read_be 32 0x02 ⟨[0x05], 0⟩ = .error .sliceOutOfRange ∧
    read_le 32 0x02 ⟨[0x05], 0⟩ = .error .sliceOutOfRange :=
  ⟨rfl, rfl, rfl, rfl, rfl⟩

/-- C4 counterexample: a `ByteArray` whose 32-bit length prefix is
`0xFFFFFFFF` (the signed value -1) decodes successfully to the empty
array with all four length bytes consumed — no `Parsing` error is
raised. -/
theorem negative_count_no_error :
    read_be 32 0x07 ⟨[0xFF, 0xFF, 0xFF, 0xFF], 0⟩ =
      .ok (Tag.ByteArray [], ⟨[0xFF, 0xFF, 0xFF, 0xFF], 4⟩) := rfl

/-- C4 amended: a negative length prefix on `ByteArray` (0x07) or
`IntArray` (0x0B) — and a negative 64-bit prefix on `LongArray` (0x0C),
whose length the readers take as an `i64` — makes the element loop
(`for _ in 0..len`) run zero times, so the read succeeds with an empty
array, consuming only the length bytes; the count is neither wrapped to
unsigned nor reported as an error. -/
theorem negative_count_reads_empty (b0 b1 b2 b3 a0 a1 a2 a3 a4 a5 a6 a7 : Nat)
    (hbe : toSigned 32 (beNat [b0, b1, b2, b3]) < 0)
    (hle : toSigned 32 (leNat [b0, b1, b2, b3]) < 0)
    (hbe8 : toSigned 64 (beNat [a0, a1, a2, a3, a4, a5, a6, a7]) < 0)
    (hle8 : toSigned 64 (leNat [a0, a1, a2, a3, a4, a5, a6, a7]) < 0) :
    read_be 32 0x07 ⟨[b0, b1, b2, b3], 0⟩ =
      .ok (Tag.ByteArray [], ⟨[b0, b1, b2, b3], 4⟩) ∧
    read_be 32 0x0B ⟨[b0, b1, b2, b3], 0⟩ =
      .ok (Tag.IntArray [], ⟨[b0, b1, b2, b3], 4⟩) ∧
    read_le 32 0x07 ⟨[b0, b1, b2, b3], 0⟩ =
      .ok (Tag.ByteArray [], ⟨[b0, b1, b2, b3], 4⟩) ∧
    read_le 32 0x0B ⟨[b0, b1, b2, b3], 0⟩ =
      .ok (Tag.IntArray [], ⟨[b0, b1, b2, b3], 4⟩) ∧
    read_be 32 0x0C ⟨[a0, a1, a2, a3, a4, a5, a6, a7], 0⟩ =
      .ok (Tag.LongArray [], ⟨[a0, a1, a2, a3, a4, a5, a6, a7], 8⟩) ∧
    read_le 32 0x0C ⟨[a0, a1, a2, a3, a4, a5, a6, a7], 0⟩ =
      .ok (Tag.LongArray [], ⟨[a0, a1, a2, a3, a4, a5, a6, a7], 8⟩) := by
  have h1 := toSigned_neg_toNat 32 (beNat [b0, b1, b2, b3]) hbe
  have h2 := toSigned_neg_toNat 32 (leNat [b0, b1, b2, b3]) hle
  have h3 := toSigned_neg_toNat 64 (beNat [a0, a1, a2, a3, a4, a5, a6, a7]) hbe8
  have h4 := toSigned_neg_toNat 64 (leNat [a0, a1, a2, a3, a4, a5, a6, a7]) hle8
  refine ⟨?_, ?_, ?_, ?_, ?_, ?_⟩
  · calc read_be 32 0x07 ⟨[b0, b1, b2, b3], 0⟩
        = Except.bind
            (readI8s (toSigned 32 (beNat [b0, b1, b2, b3])).toNat
              ⟨[b0, b1, b2, b3], 4⟩)
            (fun x => pure (Tag.ByteArray x.1, x.2)) := rfl
      _ = .ok (Tag.ByteArray [], ⟨[b0, b1, b2, b3], 4⟩) := by rw [h1]; rfl
  · calc read_be 32 0x0B ⟨[b0, b1, b2, b3], 0⟩
        = Except.bind
            (readBeI32s (toSigned 32 (beNat [b0, b1, b2, b3])).toNat
              ⟨[b0, b1, b2, b3], 4⟩)
            (fun x => pure (Tag.IntArray x.1, x.2)) := rfl
      _ = .ok (Tag.IntArray [], ⟨[b0, b1, b2, b3], 4⟩) := by rw [h1]; rfl
  · calc read_le 32 0x07 ⟨[b0, b1, b2, b3], 0⟩
        = Except.bind
            (readI8s (toSigned 32 (leNat [b0, b1, b2, b3])).toNat
              ⟨[b0, b1, b2, b3], 4⟩)
            (fun x => pure (Tag.ByteArray x.1, x.2)) := rfl
      _ = .ok (Tag.ByteArray [], ⟨[b0, b1, b2, b3], 4⟩) := by rw [h2]; rfl
  · calc read_le 32 0x0B ⟨[b0, b1, b2, b3], 0⟩
        = Except.bind
            (readLeI32s (toSigned 32 (leNat [b0, b1, b2, b3])).toNat
              ⟨[b0, b1, b2, b3], 4⟩)
            (fun x => pure (Tag.IntArray x.1, x.2)) := rfl
      _ = .ok (Tag.IntArray [], ⟨[b0, b1, b2, b3], 4⟩) := by rw [h2]; rfl
  · calc read_be 32 0x0C ⟨[a0, a1, a2, a3, a4, a5, a6, a7], 0⟩
        = Except.bind
            (readBeI64s
              (toSigned 64 (beNat [a0, a1, a2, a3, a4, a5, a6, a7])).toNat
              ⟨[a0, a1, a2, a3, a4, a5, a6, a7], 8⟩)
            (fun x => pure (Tag.LongArray x.1, x.2)) := rfl
      _ = .ok (Tag.LongArray [], ⟨[a0, a1, a2, a3, a4, a5, a6, a7], 8⟩) := by
          rw [h3]; rfl
  · calc read_le 32 0x0C ⟨[a0, a1, a2, a3, a4, a5, a6, a7], 0⟩
        = Except.bind
            (readLeI64s
              (toSigned 64 (leNat [a0, a1, a2, a3, a4, a5, a6, a7])).toNat
              ⟨[a0, a1, a2, a3, a4, a5, a6, a7], 8⟩)
            (fun x => pure (Tag.LongArray x.1, x.2)) := rfl
      _ = .ok (Tag.LongArray [], ⟨[a0, a1, a2, a3, a4, a5, a6, a7], 8⟩) := by
          rw [h4]; rfl

/-- C4 amended, witness at the all-0xFF buffers (length prefix -1). -/
theorem negative_count_reads_empty_witness :
    read_be 32 0x0B ⟨[0xFF, 0xFF, 0xFF, 0xFF], 0⟩ =
      .ok (Tag.IntArray [], ⟨[0xFF, 0xFF, 0xFF, 0xFF], 4⟩) ∧
    read_be 32 0x0C ⟨[0xFF, 0xFF, 0xFF, 0xFF, 0xFF, 0xFF, 0xFF, 0xFF], 0⟩ =
      .ok (Tag.LongArray [],
        ⟨[0xFF, 0xFF, 0xFF, 0xFF, 0xFF, 0xFF, 0xFF, 0xFF], 8⟩) :=
  ⟨(negative_count_reads_empty 0xFF 0xFF 0xFF 0xFF
      0xFF 0xFF 0xFF 0xFF 0xFF 0xFF 0xFF 0xFF
      (by decide) (by decide) (by decide) (by decide)).2.1,
   (negative_count_reads_empty 0xFF 0xFF 0xFF 0xFF
      0xFF 0xFF 0xFF 0xFF 0xFF 0xFF 0xFF 0xFF
      (by decide) (by decide) (by decide) (by decide)).2.2.2.2.1⟩

/-- C5: encoding the empty list yields exactly the five bytes
`00 00 00 00 00` under both `write_be` and `write_le` (and via
`to_be_bytes`/`to_le_bytes`), and decoding those five bytes as a list
(tag id 0x09) yields the empty list under both readers. -/
theorem empty_list_canonical :
    write_be (Tag.List []) [] = [0x00, 0x00, 0x00, 0x00, 0x00] ∧
    write_le (Tag.List []) [] = [0x00, 0x00, 0x00, 0x00, 0x00] ∧
    to_be_bytes (Tag.List []) = [0x00, 0x00, 0x00, 0x00, 0x00] ∧
    to_le_bytes (Tag.List []) = [0x00, 0x00, 0x00, 0x00, 0x00] ∧
    read_be 32 0x09 ⟨[0x00, 0x00, 0x00, 0x00, 0x00], 0⟩ =
      .ok (Tag.List [], ⟨[0x00, 0x00, 0x00, 0x00, 0x00], 5⟩) ∧
    read_le 32 0x09 ⟨[0x00, 0x00, 0x00, 0x00, 0x00], 0⟩ =
      .ok (Tag.List [], ⟨[0x00, 0x00, 0x00, 0x00, 0x00], 5⟩) :=
  ⟨rfl, rfl, rfl, rfl, rfl, rfl⟩

/-- C6: the string length prefix is the UTF-8 byte length of the native
string, not the byte count of the modified-UTF-8 payload that follows.
For the one-character string U+0000 the writer emits prefix `0x0001` but a
2-byte payload `C0 80`; for the one-character string U+1F600 it emits
prefix `0x0004` but a 6-byte payload (a CESU-8 surrogate pair). -/
theorem string_prefix_uses_utf8_len :
    write_be (Tag.String [0x0]) [] = [0x00, 0x01, 0xC0, 0x80] ∧
    (mutf8Encode [0x0]).length = 2 ∧
    write_be (Tag.String [0x1F600]) [] =
      [0x00, 0x04, 0xED, 0xA0, 0xBD, 0xED, 0xB8, 0x80] ∧
    (mutf8Encode [0x1F600]).length = 6 ∧
    utf8Len [0x0] = 1 ∧
    utf8Len [0x1F600] = 4 :=
  ⟨rfl, rfl, rfl, rfl, rfl, rfl⟩

/-- C7: a compound whose wire form holds two entries named "a" (first a
Short with payload bytes `b1 b2`, then a Short with payload bytes
`b3 b4`) decodes to a map holding only the later entry's value, with the
whole buffer — including the earlier entry's bytes — consumed (final
position 13 of 13), for any payload bytes; likewise for the little-endian
reader. -/
theorem compound_duplicate_keys (b1 b2 b3 b4 : Nat) :
    read_be 32 0x0A
        ⟨[0x02, 0x00, 0x01, 0x61, b1, b2,
          0x02, 0x00, 0x01, 0x61, b3, b4, 0x00], 0⟩ =
      .ok (Tag.Compound [([0x61], Tag.Short (toSigned 16 (beNat [b3, b4])))],
        ⟨[0x02, 0x00, 0x01, 0x61, b1, b2,
          0x02, 0x00, 0x01, 0x61, b3, b4, 0x00], 13⟩) ∧
    read_le 32 0x0A
        ⟨[0x02, 0x01, 0x00, 0x61, b1, b2,
          0x02, 0x01, 0x00, 0x61, b3, b4, 0x00], 0⟩ =
      .ok (Tag.Compound [([0x61], Tag.Short (toSigned 16 (leNat [b3, b4])))],
        ⟨[0x02, 0x01, 0x00, 0x61, b1, b2,
          0x02, 0x01, 0x00, 0x61, b3, b4, 0x00], 13⟩) :=
  ⟨rfl, rfl⟩

/-- C8: a compound payload that ends without an End marker terminates at
end-of-buffer and returns the entries read so far — here a single entry
named "a" holding an arbitrary Short — and the empty buffer decodes to the
empty compound; neither is an error, in either endianness. -/
theorem compound_implicit_terminator (b1 b2 : Nat) :
    read_be 32 0x0A ⟨[0x02, 0x00, 0x01, 0x61, b1, b2], 0⟩ =
      .ok (Tag.Compound [([0x61], Tag.Short (toSigned 16 (beNat [b1, b2])))],
        ⟨[0x02, 0x00, 0x01, 0x61, b1, b2], 6⟩) ∧
    read_le 32 0x0A ⟨[0x02, 0x01, 0x00, 0x61, b1, b2], 0⟩ =
      .ok (Tag.Compound [([0x61], Tag.Short (toSigned 16 (leNat [b1, b2])))],
        ⟨[0x02, 0x01, 0x00, 0x61, b1, b2], 6⟩) ∧
    read_be 32 0x0A ⟨[], 0⟩ = .ok (Tag.Compound [], ⟨[], 0⟩) ∧
    read_le 32 0x0A ⟨[], 0⟩ = .ok (Tag.Compound [], ⟨[], 0⟩) :=
  ⟨rfl, rfl, rfl, rfl⟩

/-- C9: the buffer `00 04 01 05 02 06 03 07` read as four consecutive
Short tags yields 0x0004, 0x0105, 0x0206, 0x0307 big-endian and 0x0400,
0x0501, 0x0602, 0x0703 little-endian; the buffer `00 01 02 03` read as
four Byte tags yields 0, 1, 2, 3 under both readers. -/
theorem endianness_golden_vectors :
    read_be 9 0x02 ⟨[0, 4, 1, 5, 2, 6, 3, 7], 0⟩ =
      .ok (Tag.Short 0x0004, ⟨[0, 4, 1, 5, 2, 6, 3, 7], 2⟩) ∧
    read_be 9 0x02 ⟨[0, 4, 1, 5, 2, 6, 3, 7], 2⟩ =
      .ok (Tag.Short 0x0105, ⟨[0, 4, 1, 5, 2, 6, 3, 7], 4⟩) ∧
    read_be 9 0x02 ⟨[0, 4, 1, 5, 2, 6, 3, 7], 4⟩ =
      .ok (Tag.Short 0x0206, ⟨[0, 4, 1, 5, 2, 6, 3, 7], 6⟩) ∧
    read_be 9 0x02 ⟨[0, 4, 1, 5, 2, 6, 3, 7], 6⟩ =
      .ok (Tag.Short 0x0307, ⟨[0, 4, 1, 5, 2, 6, 3, 7], 8⟩) ∧
    read_le 9 0x02 ⟨[0, 4, 1, 5, 2, 6, 3, 7], 0⟩ =
      .ok (Tag.Short 0x0400, ⟨[0, 4, 1, 5, 2, 6, 3, 7], 2⟩) ∧
    read_le 9 0x02 ⟨[0, 4, 1, 5, 2, 6, 3, 7], 2⟩ =
      .ok (Tag.Short 0x0501, ⟨[0, 4, 1, 5, 2, 6, 3, 7], 4⟩) ∧
    read_le 9 0x02 ⟨[0, 4, 1, 5, 2, 6, 3, 7], 4⟩ =
      .ok (Tag.Short 0x0602, ⟨[0, 4, 1, 5, 2, 6, 3, 7], 6⟩) ∧
    read_le 9 0x02 ⟨[0, 4, 1, 5, 2, 6, 3, 7], 6⟩ =
      .ok (Tag.Short 0x0703, ⟨[0, 4, 1, 5, 2, 6, 3, 7], 8⟩) ∧
    read_be 9 0x01 ⟨[0, 1, 2, 3], 0⟩ = .ok (Tag.Byte 0, ⟨[0, 1, 2, 3], 1⟩) ∧
    read_be 9 0x01 ⟨[0, 1, 2, 3], 1⟩ = .ok (Tag.Byte 1, ⟨[0, 1, 2, 3], 2⟩) ∧
    read_be 9 0x01 ⟨[0, 1, 2, 3], 2⟩ = .ok (Tag.Byte 2, ⟨[0, 1, 2, 3], 3⟩) ∧
    read_be 9 0x01 ⟨[0, 1, 2, 3], 3⟩ = .ok (Tag.Byte 3, ⟨[0, 1, 2, 3], 4⟩) ∧
    read_le 9 0x01 ⟨[0, 1, 2, 3], 0⟩ = .ok (Tag.Byte 0, ⟨[0, 1, 2, 3], 1⟩) ∧
    read_le 9 0x01 ⟨[0, 1, 2, 3], 1⟩ = .ok (Tag.Byte 1, ⟨[0, 1, 2, 3], 2⟩) ∧
    read_le 9 0x01 ⟨[0, 1, 2, 3], 2⟩ = .ok (Tag.Byte 2, ⟨[0, 1, 2, 3], 3⟩) ∧
    read_le 9 0x01 ⟨[0, 1, 2, 3], 3⟩ = .ok (Tag.Byte 3, ⟨[0, 1, 2, 3], 4⟩) :=
  ⟨rfl, rfl, rfl, rfl, rfl, rfl, rfl, rfl,
   rfl, rfl, rfl, rfl, rfl, rfl, rfl, rfl⟩

/-- C10: the in-memory `Tag` union has an `End` variant with wire id 0x00
beside the twelve payload-carrying types, and writing it with `write_be`
or `write_le` leaves any writer buffer unchanged. -/
theorem write_end_is_noop (w : List Nat) :
    write_be Tag.End w = w ∧ write_le Tag.End w = w ∧ tag_id Tag.End = 0x00 :=
  ⟨rfl, rfl, rfl⟩

end Mmio

